import Mathlib

/-!
Verification development for the Alairy video-notes editor.

The subject is `src/components/NotesPanel.tsx` (the timestamp-annotated
rich-text editor) together with the `getCurrentVideoFrame` accessor exposed by
`VideoPlayer`.  The relevant parts of the TypeScript source are shallowly
embedded below:

* JS numbers are modelled by `ℚ`; `Math.floor` is `Int.floor`, the JS `%`
  operator (`fmod`, truncating towards zero) is `jsFmod`.
* The editor's DOM subtree is a flat list of child nodes (`DNode`): text runs
  and stamp `<button>` elements.  A stamp button carries its `data-*`
  attributes (`StampAttrs`) plus its bound click handler; a click handler is a
  closure over exactly one `Stamp`, so it is modelled by the captured `Stamp`.
  `innerHTML` serialization (`SNode`) keeps the attributes and drops handlers.
* `dataset.stampValue` is written with JS `Number.prototype.toString` and read
  back with `parseFloat`; this pair is an exact round trip on JS numbers, so
  the numeric attribute is modelled by its numeric value (an `Option ℚ`,
  `none` when the attribute is missing).
* `localStorage` is an association list from keys to stored serialized
  documents; `setTimeout`/`clearTimeout` are modelled by a list of live
  timers with identities, fired when the clock passes `fireAt`.
* The editor `<div>` is rendered exactly when a video is active
  (`videoFilename ? ... : ...` in the JSX), so `editorRef.current` is non-null
  iff `videoFilename` is `some`; guards reading the ref are modelled through
  `videoFilename`.
-/

namespace Alairy

/-! ## JS numeric primitives -/

/-- Truncation towards zero of a rational, as JS float-to-int truncation:
floor for non-negative arguments, ceiling for negative ones. -/
def jsTrunc (q : ℚ) : ℤ := if 0 ≤ q then ⌊q⌋ else ⌈q⌉

/-- The JS `%` operator on numbers: `a - b * trunc(a / b)`. -/
def jsFmod (a b : ℚ) : ℚ := a - b * ((jsTrunc (a / b) : ℤ) : ℚ)

/-- `String.prototype.padStart(n, c)`: left-pad with `c` up to length `n`. -/
def padStart (s : String) (n : ℕ) (c : Char) : String :=
  String.mk (List.replicate (n - s.length) c) ++ s

/-- `formatTime` from `NotesPanel.tsx` (lines 39-44):
`h = Math.floor(seconds / 3600)`, `m = Math.floor((seconds % 3600) / 60)`,
`s = Math.floor(seconds % 60)`, rendered as
`` `${h}:${m.toString().padStart(2, '0')}:${s.toString().padStart(2, '0')}` ``. -/
def formatTime (seconds : ℚ) : String :=
  let h : ℤ := ⌊seconds / 3600⌋
  let m : ℤ := ⌊jsFmod seconds 3600 / 60⌋
  let s : ℤ := ⌊jsFmod seconds 60⌋
  toString h ++ ":" ++ padStart (toString m) 2 '0' ++ ":" ++ padStart (toString s) 2 '0'

/-- JS `Number.prototype.toString` on the numeric values that occur in the
claims: an integral JS number prints with no fractional part.  (Non-integral
printing is never needed below; it falls back to the `ℚ` repr.) -/
def numToStr (q : ℚ) : String := if q.den = 1 then toString q.num else toString q

/-! ## The Stamp model -/

/-- The two stamp kinds (`'time' | 'frame'` in the source). -/
inductive StampKind
  | time
  | frame
deriving DecidableEq

/-- The `Stamp` interface from `NotesPanel.tsx` (lines 13-18). -/
structure Stamp where
  id : String
  type : StampKind
  value : ℚ
  label : String
deriving DecidableEq

/-- The string stored in `data-stamp-type`. -/
def kindStr : StampKind → String
  | StampKind.time => "time"
  | StampKind.frame => "frame"

/-- The four `data-stamp-*` attributes of a stamp button.  `none` models a
missing attribute (`undefined` in JS). -/
structure StampAttrs where
  stampId : Option String
  stampType : Option String
  stampValue : Option ℚ
  stampLabel : Option String
deriving DecidableEq

/-- Attribute assignment performed by `insertStampButton` (lines 249-252):
all four dataset attributes are written from the stamp. -/
def serializeAttrs (st : Stamp) : StampAttrs :=
  { stampId := some st.id
    stampType := some (kindStr st.type)
    stampValue := some st.value
    stampLabel := some st.label }

/-- The `btn.dataset.stampType as 'time' | 'frame'` cast: the attribute string
is trusted; every consumer only tests `=== 'time'`, so any other value behaves
as `frame`. -/
def decodeKind (o : Option String) : StampKind :=
  if o = some "time" then StampKind.time else StampKind.frame

/-- Stamp reconstruction in `reattachStampListeners` (lines 68-73):
`id = dataset.stampId || ''`, `type = dataset.stampType as ...`,
`value = parseFloat(dataset.stampValue || '0')`, `label = dataset.stampLabel || ''`. -/
def stampOfAttrs (a : StampAttrs) : Stamp :=
  { id := a.stampId.getD ""
    type := decodeKind a.stampType
    value := a.stampValue.getD 0
    label := a.stampLabel.getD "" }

/-! ## The editor document -/

/-- A live child node of the editor `<div>`: a text run, or a stamp button
with its attributes, its visible display text and its bound click handler
(the `Stamp` captured by the listener closure; `none` when no listener is
attached, e.g. right after assigning `innerHTML`). -/
inductive DNode
  | text (s : String)
  | stampBtn (attrs : StampAttrs) (display : String) (handler : Option Stamp)
deriving DecidableEq

/-- A node of the serialized (`innerHTML`) form: attributes and markup
survive, event listeners do not. -/
inductive SNode
  | text (s : String)
  | stampBtn (attrs : StampAttrs) (display : String)
deriving DecidableEq

/-- Reading `innerHTML`: listeners are dropped, markup is kept. -/
def serializeNode : DNode → SNode
  | DNode.text s => SNode.text s
  | DNode.stampBtn a d _ => SNode.stampBtn a d

/-- Assigning `innerHTML`: freshly parsed nodes carry no listeners. -/
def renderNode : SNode → DNode
  | SNode.text s => DNode.text s
  | SNode.stampBtn a d => DNode.stampBtn a d none

/-- One step of `reattachStampListeners` (lines 62-83): each stamp button is
cloned (dropping any old listener) and given a fresh click listener closing
over the `Stamp` rebuilt from that button's own attributes. -/
def reattachNode : DNode → DNode
  | DNode.text s => DNode.text s
  | DNode.stampBtn a d _ => DNode.stampBtn a d (some (stampOfAttrs a))

/-- An abstract document: interleaved text runs and stamps (each stamp with
its display text), the shape produced by typing and `insertStampButton`. -/
def buildNode : String ⊕ Stamp × String → DNode
  | Sum.inl s => DNode.text s
  | Sum.inr (st, d) => DNode.stampBtn (serializeAttrs st) d (some st)

/-- Render an abstract document to the editor child list exactly as a
sequence of typing and insertions would. -/
def buildDoc (ad : List (String ⊕ Stamp × String)) : List DNode := ad.map buildNode

/-- Is this node a stamp button (`dataset.stampId` present on an element)? -/
def isStampNode : DNode → Bool
  | DNode.stampBtn _ _ _ => true
  | DNode.text _ => false

/-- Export substitution for one node (`exportNotes`, lines 163-177): a stamp
button is replaced by `[H:MM:SS]` for a time stamp, `[Frame <value>]` for a
frame stamp, and the empty string when type or value attribute is unusable;
text runs contribute their text. -/
def exportNode : DNode → String
  | DNode.text s => s
  | DNode.stampBtn a _ _ =>
    match a.stampType, a.stampValue with
    | some "time", some v => "[" ++ formatTime v ++ "]"
    | some "frame", some v => "[Frame " ++ numToStr v ++ "]"
    | _, _ => ""

/-- The visible text of the export copy after substitution
(`tempDiv.innerText`). -/
def exportText (doc : List DNode) : String :=
  (doc.map exportNode).foldl (fun a b => a ++ b) ""

/-- The characters after the final `.` of `f`, when the JS regex
`/\.[^/.]+$/` matches: at least one character, none of them `/` (none can be
`.` since the dot found is the last one). -/
def extSuffix (f : String) : Option (List Char) :=
  let r := f.data.reverse
  let pre := r.takeWhile (fun c => c ≠ '.')
  if pre.length = r.length then none
  else if pre = [] then none
  else if pre.any (fun c => c = '/') then none
  else some pre.reverse

/-- `videoFilename.replace(/\.[^/.]+$/, '')` (line 190): strip the final
extension when the regex matches, else leave the name unchanged. -/
def stripExt (f : String) : String :=
  match extSuffix f with
  | none => f
  | some sfx => String.mk (f.data.take (f.data.length - (sfx.length + 1)))

/-! ## Editor state -/

/-- A transient user notice (the `toast` calls). -/
inductive Toast
  | success (msg : String)
  | error (msg : String)
deriving DecidableEq

/-- A live `setTimeout` arming of the autosave: its JS timeout id, its fire
time, and the `videoFilename` captured by the scheduled closure (the
`autoSave` `useCallback` closes over the render's `videoFilename`, so the
target filename is fixed at schedule time). -/
structure AutoTimer where
  id : ℕ
  fireAt : ℕ
  savedFilename : Option String
deriving DecidableEq

/-- The state of the notes panel plus its browser collaborators.
`doc` is the editor's child list, `storage` the `localStorage` contents,
`writeLog` a history of every `localStorage.setItem` performed (time, key,
value) used to count writes, `toasts` the notices shown so far.
`timeoutRef` is `autoSaveTimeoutRef.current`. -/
structure EditorState where
  videoFilename : Option String
  doc : List DNode
  hasChanges : Bool
  lastBackspaceTime : ℕ
  timers : List AutoTimer
  timeoutRef : Option ℕ
  nextTimerId : ℕ
  storage : List (String × List SNode)
  writeLog : List (ℕ × String × List SNode)
  toasts : List Toast
deriving DecidableEq

/-- The persisted record key: `` `vidnotes_${videoFilename}` ``. -/
def recordKey (f : String) : String := "vidnotes_" ++ f

/-- `localStorage.setItem`. -/
def setItem (st : List (String × List SNode)) (k : String) (v : List SNode) :
    List (String × List SNode) :=
  (k, v) :: st.filter (fun p => p.1 ≠ k)

/-- `localStorage.getItem` (`none` = JS `null`). -/
def getItem (st : List (String × List SNode)) (k : String) : Option (List SNode) :=
  (st.find? (fun p => p.1 = k)).map (fun p => p.2)

/-- `localStorage.removeItem`. -/
def removeItem (st : List (String × List SNode)) (k : String) :
    List (String × List SNode) :=
  st.filter (fun p => p.1 ≠ k)

/-- `if (autoSaveTimeoutRef.current) clearTimeout(autoSaveTimeoutRef.current)`
(lines 112-114 and 286-288). -/
def clearScheduled (s : EditorState) : EditorState :=
  match s.timeoutRef with
  | none => s
  | some i => { s with timers := s.timers.filter (fun tm => tm.id ≠ i) }

/-- `autoSaveTimeoutRef.current = setTimeout(() => autoSave(), delay)` after
the clear above: the new timer closes over the current `videoFilename`. -/
def scheduleAutoSave (s : EditorState) (t delay : ℕ) : EditorState :=
  let s' := clearScheduled s
  { s' with
      timers := s'.timers ++ [⟨s'.nextTimerId, t + delay, s'.videoFilename⟩]
      timeoutRef := some s'.nextTimerId
      nextTimerId := s'.nextTimerId + 1 }

/-- The body of `autoSave` (lines 101-106) run at fire time `t` with the
filename `captured` at schedule time: bail out if the captured filename was
null or the editor is now unmounted; otherwise write the editor's *current*
`innerHTML` under the *captured* filename's key. -/
def autoSaveRun (captured : Option String) (t : ℕ) (s : EditorState) : EditorState :=
  match captured with
  | none => s
  | some f =>
    if s.videoFilename.isSome then
      { s with
          storage := setItem s.storage (recordKey f) (s.doc.map serializeNode)
          writeLog := s.writeLog ++ [(t, recordKey f, s.doc.map serializeNode)]
          hasChanges := false }
    else s

/-- Fire every live timer whose fire time has passed by clock time `t`. -/
def fireDue (s : EditorState) (t : ℕ) : EditorState :=
  let due := s.timers.filter (fun tm => tm.fireAt ≤ t)
  let rest := s.timers.filter (fun tm => t < tm.fireAt)
  due.foldl (fun acc tm => autoSaveRun tm.savedFilename tm.fireAt acc)
    { s with timers := rest }

/-- Let every remaining timer fire (advance the clock past all of them). -/
def settleTimers (s : EditorState) : EditorState :=
  s.timers.foldl (fun acc tm => autoSaveRun tm.savedFilename tm.fireAt acc)
    { s with timers := [] }

/-- `handleInput` (lines 108-120) at clock time `t`, after typing has already
changed the editor contents to `newDoc`: mark dirty, clear the pending
timeout, re-arm the autosave 1000ms out. -/
def handleInput (s : EditorState) (newDoc : List DNode) (t : ℕ) : EditorState :=
  scheduleAutoSave { s with doc := newDoc, hasChanges := true } t 1000

/-- The load-notes effect (lines 86-98), run after `videoFilename` changes:
when a video is active, render the persisted record (or an empty document)
and reattach the stamp listeners; reset the dirty flag.  The pending
autosave timeout is *not* touched (only the unmount cleanup clears it). -/
def loadNotesEffect (s : EditorState) : EditorState :=
  match s.videoFilename with
  | none => s
  | some f =>
    match getItem s.storage (recordKey f) with
    | some saved =>
      { s with doc := (saved.map renderNode).map reattachNode, hasChanges := false }
    | none => { s with doc := [], hasChanges := false }

/-- Switching the active video: the `videoFilename` prop changes and the
load-notes effect runs. -/
def activate (s : EditorState) (v : Option String) : EditorState :=
  loadNotesEffect { s with videoFilename := v }

/-- `saveNotes` (lines 131-140). -/
def saveNotes (s : EditorState) : EditorState :=
  match s.videoFilename with
  | none => { s with toasts := s.toasts ++ [Toast.error "No video loaded"] }
  | some f =>
    { s with
        storage := setItem s.storage (recordKey f) (s.doc.map serializeNode)
        hasChanges := false
        toasts := s.toasts ++ [Toast.success "Notes saved"] }

/-- `clearNotes` (lines 142-151); `confirmed` is the user's answer to
`window.confirm`.  Note the no-video guard returns silently, with no toast. -/
def clearNotes (s : EditorState) (confirmed : Bool) : EditorState :=
  match s.videoFilename with
  | none => s
  | some f =>
    if confirmed then
      { s with
          storage := removeItem s.storage (recordKey f)
          doc := []
          hasChanges := false
          toasts := s.toasts ++ [Toast.success "Notes deleted"] }
    else s

/-- `exportNotes` (lines 153-197): returns the updated state and, on success,
the offered download as `(filename, contents)`. -/
def exportNotes (s : EditorState) : EditorState × Option (String × String) :=
  match s.videoFilename with
  | none => ({ s with toasts := s.toasts ++ [Toast.error "No notes to export"] }, none)
  | some f =>
    let markdown := "# Notes for " ++ f ++ "\n\n" ++ exportText s.doc
    ({ s with toasts := s.toasts ++ [Toast.success "Notes exported"] },
      some (stripExt f ++ "_notes.md", markdown))

/-! ## Stamp insertion -/

/-- A DOM `Range` as used by `insertStampButton`: whether the editor contains
its common ancestor, and the insertion index in the editor's child list.
Ranges are modelled as collapsed insertion points (for a collapsed range
`deleteContents()` is a no-op). -/
structure JsRange where
  inEditor : Bool
  pos : ℕ
deriving DecidableEq

/-- A `Selection`: its list of ranges (`rangeCount` = length). -/
structure JsSelection where
  ranges : List JsRange
deriving DecidableEq

/-- `insertStampButton` (lines 240-292).  `window.getSelection()` may be
`null` (no selection object) or hold zero ranges; in the latter case
`selection.getRangeAt(0)` throws an `IndexSizeError` `DOMException`, which
nothing in the component catches — modelled by `Except.error`.  Otherwise the
stamp button (attributes, display text and click listener closing over this
stamp) is spliced at the range when the editor contains it, else appended at
the end; the document is marked dirty and an autosave is re-armed 500ms out. -/
def insertStampButton (s : EditorState) (sel : Option JsSelection) (st : Stamp)
    (display : String) (t : ℕ) : Except String EditorState :=
  if s.videoFilename.isNone then Except.ok s
  else
    let rangeRes : Except String (Option JsRange) :=
      match sel with
      | none => Except.ok none
      | some sl =>
        match sl.ranges with
        | [] => Except.error "IndexSizeError"
        | r :: _ => Except.ok (some r)
    match rangeRes with
    | Except.error e => Except.error e
    | Except.ok rangeOpt =>
      let node := DNode.stampBtn (serializeAttrs st) display (some st)
      let doc' :=
        match rangeOpt with
        | some r =>
          if r.inEditor then s.doc.insertIdx (min r.pos s.doc.length) node
          else s.doc ++ [node]
        | none => s.doc ++ [node]
      Except.ok (scheduleAutoSave { s with doc := doc', hasChanges := true } t 500)

/-! ## Backspace handling -/

/-- The caret's container as inspected by `handleKeyDown`: a text child of
the editor (by index) or the editor element itself. -/
inductive RangeNode
  | textNode (i : ℕ)
  | rootElem
deriving DecidableEq

/-- A `Range` as inspected by `handleKeyDown`: collapsed flag,
`startContainer` and `startOffset`. -/
structure KRange where
  collapsed : Bool
  container : RangeNode
  offset : ℕ
deriving DecidableEq

/-- A `Selection` for the keydown path. -/
structure KSelection where
  ranges : List KRange
deriving DecidableEq

/-- The shared body of the two stamp-adjacency branches of `handleKeyDown`
(lines 308-319 and 327-338): a second press within 500ms of arming deletes
child `j` and returns to idle; otherwise (re-)arm at `now`.  Both branches
call `e.preventDefault()`. -/
def backspaceStampDelete (s : EditorState) (now j : ℕ) : EditorState × Bool :=
  if now - s.lastBackspaceTime < 500 then
    ({ s with
        doc := s.doc.eraseIdx j
        hasChanges := true
        lastBackspaceTime := 0
        toasts := s.toasts ++ [Toast.success "Stamp deleted"] }, true)
  else
    ({ s with lastBackspaceTime := now }, true)

/-- `handleKeyDown` (lines 294-344) for a Backspace press at clock time
`now`; the second component reports whether `e.preventDefault()` was called
(native backspace suppressed).  Early returns for a missing selection, zero
ranges or a non-collapsed range leave `lastBackspaceTime` untouched. -/
def handleKeyDown (s : EditorState) (sel : Option KSelection) (now : ℕ) :
    EditorState × Bool :=
  if s.videoFilename.isNone then (s, false)
  else
    match sel with
    | none => (s, false)
    | some sl =>
      match sl.ranges with
      | [] => (s, false)
      | r :: _ =>
        if ¬ r.collapsed then (s, false)
        else
          match r.container with
          | RangeNode.textNode i =>
            match s.doc[i]? with
            | some (DNode.text str) =>
              if r.offset = str.length then
                match s.doc[i + 1]? with
                | some (DNode.stampBtn _ _ _) => backspaceStampDelete s now (i + 1)
                | _ => ({ s with lastBackspaceTime := 0 }, false)
              else ({ s with lastBackspaceTime := 0 }, false)
            | _ => ({ s with lastBackspaceTime := 0 }, false)
          | RangeNode.rootElem =>
            if r.offset > 0 then
              match s.doc[r.offset - 1]? with
              | some (DNode.stampBtn _ _ _) => backspaceStampDelete s now (r.offset - 1)
              | _ => ({ s with lastBackspaceTime := 0 }, false)
            else ({ s with lastBackspaceTime := 0 }, false)

/-- The index of the stamp child a collapsed caret is adjacent to, if any:
either the caret sits at the end of text child `i` whose next sibling is a
stamp, or it sits in the editor element with a stamp as the preceding child. -/
def adjacentStamp (doc : List DNode) (c : RangeNode) (off : ℕ) : Option ℕ :=
  match c with
  | RangeNode.textNode i =>
    match doc[i]? with
    | some (DNode.text str) =>
      if off = str.length then
        match doc[i + 1]? with
        | some (DNode.stampBtn _ _ _) => some (i + 1)
        | _ => none
      else none
    | _ => none
  | RangeNode.rootElem =>
    if off > 0 then
      match doc[off - 1]? with
      | some (DNode.stampBtn _ _ _) => some (off - 1)
      | _ => none
    else none

/-! ## Stamp activation and the frame accessor -/

/-- `handleStampClick` (lines 46-59): with no seek collaborator, an error
notice and no action; a time stamp seeks to its value in seconds; a frame
stamp seeks to `value / 30` seconds.  Returns the seek target requested (if
any) and the toast shown. -/
def handleStampClick (hasSeek : Bool) (st : Stamp) : Option ℚ × Toast :=
  if ¬ hasSeek then (none, Toast.error "Cannot navigate to timestamp")
  else
    match st.type with
    | StampKind.time =>
      (some st.value, Toast.success ("Jumped to " ++ formatTime st.value))
    | StampKind.frame =>
      (some (st.value / 30), Toast.success ("Jumped to frame " ++ numToStr st.value))

/-- `getCurrentVideoFrame` from `VideoPlayer` (line 517):
`Math.floor(currentTime * 30)`. -/
def getCurrentVideoFrame (currentTime : ℚ) : ℤ := ⌊currentTime * 30⌋

/-! ## Event traces -/

/-- The external events a trace can deliver to the panel. -/
inductive Ev
  | input (d : List DNode)
  | activateVideo (v : Option String)
  | insertStamp (st : Stamp) (display : String) (sel : Option JsSelection)

/-- Deliver one event at time `t` (an uncaught insertion exception leaves the
state as is). -/
def applyEv (s : EditorState) (t : ℕ) (e : Ev) : EditorState :=
  match e with
  | Ev.input d => handleInput s d t
  | Ev.activateVideo v => activate s v
  | Ev.insertStamp st disp sel =>
    match insertStampButton s sel st disp t with
    | Except.ok s' => s'
    | Except.error _ => s

/-- One scheduler step: timers due by time `t` fire first, then the event is
delivered. -/
def step (s : EditorState) (t : ℕ) (e : Ev) : EditorState :=
  applyEv (fireDue s t) t e

/-- Run a timed event trace. -/
def run (s : EditorState) (evs : List (ℕ × Ev)) : EditorState :=
  evs.foldl (fun acc p => step acc p.1 p.2) s

/-- Typing times are admissible after `t` when they are non-decreasing and
each gap is under the 1000ms debounce. -/
def inputChain : ℕ → List (ℕ × List DNode) → Prop
  | _, [] => True
  | t, (u, _) :: rest => t ≤ u ∧ u < t + 1000 ∧ inputChain u rest

/-- The time of the last event of a trace (default `t`). -/
def lastTime (t : ℕ) (evs : List (ℕ × List DNode)) : ℕ :=
  (evs.map Prod.fst).getLastD t

/-- The document contents after the last input (default `d`). -/
def lastDoc (d : List DNode) (evs : List (ℕ × List DNode)) : List DNode :=
  (evs.map Prod.snd).getLastD d

/-- At most one autosave timer is ever pending, and it is the one the
timeout ref points to. -/
def TimerInv (s : EditorState) : Prop :=
  s.timers = [] ∨
    ∃ tm, s.timers = [tm] ∧ s.timeoutRef = some tm.id ∧ tm.id < s.nextTimerId

/-! ## Arithmetic facts about the time formatting -/

theorem jsTrunc_of_nonneg (q : ℚ) (h : 0 ≤ q) : jsTrunc q = ⌊q⌋ := if_pos h

theorem floor_div_natCast (q : ℚ) (n : ℕ) (hn : 0 < n) :
    ⌊q / (n : ℚ)⌋ = ⌊q⌋ / (n : ℤ) := by
  have hn0 : (0 : ℚ) < (n : ℚ) := by exact_mod_cast hn
  have hnz : (0 : ℤ) < (n : ℤ) := by exact_mod_cast hn
  apply le_antisymm
  · rw [Int.le_ediv_iff_mul_le hnz, Int.le_floor]
    push_cast
    calc (⌊q / (n : ℚ)⌋ : ℚ) * n ≤ (q / n) * n :=
          mul_le_mul_of_nonneg_right (Int.floor_le _) (le_of_lt hn0)
      _ = q := div_mul_cancel₀ q (ne_of_gt hn0)
  · rw [Int.le_floor]
    rw [le_div_iff₀ hn0]
    calc ((⌊q⌋ / (n : ℤ) : ℤ) : ℚ) * n = (((⌊q⌋ / (n : ℤ)) * n : ℤ) : ℚ) := by
          push_cast; ring
      _ ≤ (⌊q⌋ : ℚ) := by exact_mod_cast Int.ediv_mul_le ⌊q⌋ (ne_of_gt hnz)
      _ ≤ q := Int.floor_le q

theorem floor_jsFmod (q : ℚ) (hq : 0 ≤ q) (n : ℕ) (hn : 0 < n) :
    ⌊jsFmod q n⌋ = ⌊q⌋ % (n : ℤ) := by
  have hq' : 0 ≤ q / (n : ℚ) := by positivity
  rw [jsFmod, jsTrunc_of_nonneg _ hq']
  have hcast : (n : ℚ) * ((⌊q / (n : ℚ)⌋ : ℤ) : ℚ) =
      (((n : ℤ) * ⌊q / (n : ℚ)⌋ : ℤ) : ℚ) := by push_cast; ring
  rw [hcast, Int.floor_sub_int, floor_div_natCast q n hn, Int.emod_def]

theorem toString_natCast_int (k : ℕ) : toString ((k : ℕ) : ℤ) = toString k := rfl

theorem natRepr_length_le_two : ∀ m : ℕ, m < 100 → (toString m).length ≤ 2 := by decide

theorem padStart_length_two (s : String) (h : s.length ≤ 2) :
    (padStart s 2 '0').length = 2 := by
  rw [padStart, String.length_append]
  have : (String.mk (List.replicate (2 - s.length) '0')).length = 2 - s.length := by
    show (List.replicate (2 - s.length) '0').length = 2 - s.length
    simp
  omega

/-- C5: for every non-negative number of seconds, `formatTime` renders
`H:MM:SS` where (with `n` the floor of the input) the hours digit string is
the unpadded decimal of `n / 3600`, minutes are `n % 3600 / 60` and seconds
are `n % 60`, both zero-padded to width exactly 2; all three components are
floor-truncated.  (The examples `formatTime 3661 = "1:01:01"` and
`formatTime 59 = "0:00:59"` are the witness.) -/
theorem formatTime_spec (q : ℚ) (hq : 0 ≤ q) :
    formatTime q =
      toString (⌊q⌋.toNat / 3600) ++ ":" ++
        padStart (toString (⌊q⌋.toNat % 3600 / 60)) 2 '0' ++ ":" ++
        padStart (toString (⌊q⌋.toNat % 60)) 2 '0' ∧
    (padStart (toString (⌊q⌋.toNat % 3600 / 60)) 2 '0').length = 2 ∧
    (padStart (toString (⌊q⌋.toNat % 60)) 2 '0').length = 2 := by
  have hfl : (⌊q⌋ : ℤ) = (⌊q⌋.toNat : ℤ) :=
    (Int.toNat_of_nonneg (Int.floor_nonneg.2 hq)).symm
  set n := ⌊q⌋.toNat with hn
  have c3600 : ((3600 : ℕ) : ℚ) = (3600 : ℚ) := by norm_num
  have c60 : ((60 : ℕ) : ℚ) = (60 : ℚ) := by norm_num
  have h1 : ⌊q / 3600⌋ = ((n / 3600 : ℕ) : ℤ) := by
    rw [← c3600, floor_div_natCast q 3600 (by norm_num), hfl]
    omega
  have h2 : ⌊jsFmod q 3600 / 60⌋ = ((n % 3600 / 60 : ℕ) : ℤ) := by
    rw [← c60, floor_div_natCast _ 60 (by norm_num), ← c3600,
      floor_jsFmod q hq 3600 (by norm_num), hfl]
    push_cast
    omega
  have h3 : ⌊jsFmod q 60⌋ = ((n % 60 : ℕ) : ℤ) := by
    rw [← c60, floor_jsFmod q hq 60 (by norm_num), hfl]
    push_cast
    omega
  refine ⟨?_, ?_, ?_⟩
  · simp only [formatTime, h1, h2, h3, toString_natCast_int]
  · exact padStart_length_two _ (natRepr_length_le_two _ (by omega))
  · exact padStart_length_two _ (natRepr_length_le_two _ (by omega))

/-- Witness for C5 at the spec's own sample points. -/
theorem formatTime_spec_witness :
    ((0 : ℚ) ≤ 3661 ∧ formatTime 3661 = "1:01:01") ∧
    ((0 : ℚ) ≤ 59 ∧ formatTime 59 = "0:00:59") := by
  have e1 : ⌊(3661 : ℚ)⌋ = 3661 := by norm_num
  have e2 : ⌊(59 : ℚ)⌋ = 59 := by norm_num
  have h1 := (formatTime_spec 3661 (by norm_num)).1
  have h2 := (formatTime_spec 59 (by norm_num)).1
  rw [e1] at h1
  rw [e2] at h2
  refine ⟨⟨by norm_num, ?_⟩, ⟨by norm_num, ?_⟩⟩
  · rw [h1]; decide
  · rw [h2]; decide

/-! ## Concrete states used to instantiate the theorems -/

/-- A freshly mounted panel: no video, empty everything. -/
def basePanel : EditorState :=
  { videoFilename := none, doc := [], hasChanges := false, lastBackspaceTime := 0,
    timers := [], timeoutRef := none, nextTimerId := 0, storage := [],
    writeLog := [], toasts := [] }

/-! ## Claims -/

/-- C9: with a seek collaborator, stamp activation seeks to `value` seconds
for a time stamp and to `value / 30` seconds for a frame stamp (fixed 30fps);
without one it shows an error and requests no seek; and the frame accessor
returns `⌊currentTime * 30⌋`. -/
theorem stamp_click_seek (st : Stamp) :
    handleStampClick false st = (none, Toast.error "Cannot navigate to timestamp") ∧
    (st.type = StampKind.time →
      handleStampClick true st =
        (some st.value, Toast.success ("Jumped to " ++ formatTime st.value))) ∧
    (st.type = StampKind.frame →
      handleStampClick true st =
        (some (st.value / 30), Toast.success ("Jumped to frame " ++ numToStr st.value))) ∧
    (∀ t : ℚ, getCurrentVideoFrame t = ⌊t * 30⌋) := by
  refine ⟨rfl, fun ht => ?_, fun ht => ?_, fun _ => rfl⟩
  · simp [handleStampClick, ht]
  · simp [handleStampClick, ht]

/-- Witness for C9 at a concrete time stamp. -/
theorem stamp_click_seek_witness :
    (Stamp.mk "time-1" StampKind.time 5 "Timestamp").type = StampKind.time ∧
    handleStampClick true (Stamp.mk "time-1" StampKind.time 5 "Timestamp") =
      (some (Stamp.mk "time-1" StampKind.time 5 "Timestamp").value,
        Toast.success ("Jumped to " ++
          formatTime (Stamp.mk "time-1" StampKind.time 5 "Timestamp").value)) :=
  ⟨rfl, (stamp_click_seek (Stamp.mk "time-1" StampKind.time 5 "Timestamp")).2.1 rfl⟩

/-- C8 (amended): with no active video, `saveNotes` and `exportNotes` perform
no mutation and surface an error notice, while `clearNotes` performs no
mutation but returns silently, with no notice at all. -/
theorem no_video_guards (s : EditorState) (h : s.videoFilename = none) :
    saveNotes s = { s with toasts := s.toasts ++ [Toast.error "No video loaded"] } ∧
    exportNotes s =
      ({ s with toasts := s.toasts ++ [Toast.error "No notes to export"] }, none) ∧
    ∀ c, clearNotes s c = s := by
  refine ⟨?_, ?_, fun c => ?_⟩ <;> simp [saveNotes, exportNotes, clearNotes, h]

/-- Witness for C8 on the fresh panel. -/
theorem no_video_guards_witness :
    basePanel.videoFilename = none ∧
    (saveNotes basePanel =
      { basePanel with toasts := basePanel.toasts ++ [Toast.error "No video loaded"] } ∧
    exportNotes basePanel =
      ({ basePanel with toasts := basePanel.toasts ++ [Toast.error "No notes to export"] },
        none) ∧
    ∀ c, clearNotes basePanel c = basePanel) :=
  ⟨rfl, no_video_guards basePanel rfl⟩

/-- Counterexample for C8 as stated: `clearNotes` with no active video shows
no transient notice at all (the claim requires one for each of save, export
and clear). -/
theorem clearNotes_no_video_silent : (clearNotes basePanel true).toasts = [] := rfl

/-- C7: a panel with an active video, in which `window.getSelection()`
returns a `Selection` whose `rangeCount` is zero. -/
def rangelessPanel : EditorState :=
  { basePanel with videoFilename := some "clip.mp4", doc := [DNode.text "hello"] }

/-- C7: with an active video and a selection object holding zero ranges,
`insertStampButton` throws (`selection.getRangeAt(0)` raises an
`IndexSizeError` before any guard), instead of appending the stamp at the
document's end as the claim requires — while a truly absent selection does
append at the end. -/
theorem insertStamp_no_range_throws :
    insertStampButton rangelessPanel (some ⟨[]⟩)
        (Stamp.mk "frame-1" StampKind.frame 90 "Frame") "F90" 0 =
      Except.error "IndexSizeError" ∧
    insertStampButton rangelessPanel none
        (Stamp.mk "frame-1" StampKind.frame 90 "Frame") "F90" 0 =
      Except.ok (scheduleAutoSave
        { rangelessPanel with
            doc := rangelessPanel.doc ++
              [DNode.stampBtn (serializeAttrs (Stamp.mk "frame-1" StampKind.frame 90 "Frame"))
                "F90" (some (Stamp.mk "frame-1" StampKind.frame 90 "Frame"))]
            hasChanges := true } 0 500) :=
  ⟨rfl, rfl⟩

/-- C4: with an active video, `exportNotes` offers a download named
`<identity minus extension>_notes.md` whose contents are the title line, a
blank line, and the visible text with each time stamp bracketed through
`formatTime` and each frame stamp as `[Frame <n>]`; concretely `125.4`
renders as `[0:02:05]` and frame `90` as `[Frame 90]`. -/
theorem exportNotes_spec (s : EditorState) (f : String) (h : s.videoFilename = some f) :
    exportNotes s =
      ({ s with toasts := s.toasts ++ [Toast.success "Notes exported"] },
        some (stripExt f ++ "_notes.md", "# Notes for " ++ f ++ "\n\n" ++ exportText s.doc)) ∧
    (∀ (st : Stamp) (d : String) (hd : Option Stamp), st.type = StampKind.time →
      exportNode (DNode.stampBtn (serializeAttrs st) d hd) = "[" ++ formatTime st.value ++ "]") ∧
    (∀ (st : Stamp) (d : String) (hd : Option Stamp), st.type = StampKind.frame →
      exportNode (DNode.stampBtn (serializeAttrs st) d hd) = "[Frame " ++ numToStr st.value ++ "]") ∧
    formatTime (125.4 : ℚ) = "0:02:05" ∧
    numToStr 90 = "90" := by
  refine ⟨?_, ?_, ?_, ?_, ?_⟩
  · simp [exportNotes, h]
  · intro st d hd ht
    simp [exportNode, serializeAttrs, ht, kindStr]
  · intro st d hd ht
    simp [exportNode, serializeAttrs, ht, kindStr]
  · norm_num [formatTime, jsFmod, jsTrunc]
    decide
  · norm_num [numToStr]
    decide

/-- C4 witness: a document with text and both stamp kinds under
`clip.mp4`. -/
def exportPanel : EditorState :=
  { basePanel with
      videoFilename := some "clip.mp4"
      doc := [DNode.text "intro ",
        DNode.stampBtn (serializeAttrs (Stamp.mk "time-1" StampKind.time 125.4 "Timestamp"))
          "0:02:05" (some (Stamp.mk "time-1" StampKind.time 125.4 "Timestamp")),
        DNode.text " then ",
        DNode.stampBtn (serializeAttrs (Stamp.mk "frame-2" StampKind.frame 90 "Frame"))
          "F90" (some (Stamp.mk "frame-2" StampKind.frame 90 "Frame"))] }

/-- Witness for C4 on `exportPanel`. -/
theorem exportNotes_spec_witness :
    exportPanel.videoFilename = some "clip.mp4" ∧
    (exportNotes exportPanel =
      ({ exportPanel with toasts := exportPanel.toasts ++ [Toast.success "Notes exported"] },
        some (stripExt "clip.mp4" ++ "_notes.md",
          "# Notes for " ++ "clip.mp4" ++ "\n\n" ++ exportText exportPanel.doc)) ∧
    (∀ (st : Stamp) (d : String) (hd : Option Stamp), st.type = StampKind.time →
      exportNode (DNode.stampBtn (serializeAttrs st) d hd) = "[" ++ formatTime st.value ++ "]") ∧
    (∀ (st : Stamp) (d : String) (hd : Option Stamp), st.type = StampKind.frame →
      exportNode (DNode.stampBtn (serializeAttrs st) d hd) = "[Frame " ++ numToStr st.value ++ "]") ∧
    formatTime (125.4 : ℚ) = "0:02:05" ∧
    numToStr 90 = "90") :=
  ⟨rfl, exportNotes_spec exportPanel "clip.mp4" rfl⟩

/-- Per-node round trip: serializing a node built by insertion, re-rendering
it from markup and reattaching its listener reproduces the node exactly,
handler included. -/
theorem roundtrip_node (x : String ⊕ Stamp × String) :
    reattachNode (renderNode (serializeNode (buildNode x))) = buildNode x := by
  rcases x with s | ⟨⟨i, ty, v, lb⟩, d⟩
  · rfl
  · cases ty <;> rfl

/-- C3: reloading a persisted document the way `activate` does (assign the
stored markup, then reattach listeners by scanning attributes) reproduces
the document exactly: every stamp's four fields are recovered unchanged and
every reattached click handler closes over that stamp's own data. -/
theorem stamp_roundtrip (ad : List (String ⊕ Stamp × String)) (f : String)
    (s : EditorState)
    (h : getItem s.storage (recordKey f) = some ((buildDoc ad).map serializeNode)) :
    (activate s (some f)).doc = buildDoc ad ∧
    (∀ st : Stamp, stampOfAttrs (serializeAttrs st) = st) := by
  constructor
  · show (loadNotesEffect { s with videoFilename := some f }).doc = buildDoc ad
    simp only [loadNotesEffect]
    rw [show ({ s with videoFilename := some f } : EditorState).storage = s.storage from rfl] at *
    simp only [h]
    rw [buildDoc, List.map_map, List.map_map, List.map_map]
    exact List.map_congr_left fun x _ => roundtrip_node x
  · intro st
    obtain ⟨i, ty, v, lb⟩ := st
    cases ty <;> rfl

/-- C3 witness: a concrete stored document with one text run and both stamp
kinds. -/
def storedDoc : List (String ⊕ Stamp × String) :=
  [Sum.inl "take at ",
   Sum.inr (Stamp.mk "time-1" StampKind.time 12.5 "Timestamp", "0:00:12"),
   Sum.inr (Stamp.mk "frame-2" StampKind.frame 90 "Frame", "F90")]

/-- C3: a panel whose storage holds the serialized `storedDoc` under
`clip.mp4`. -/
def roundtripPanel : EditorState :=
  { basePanel with
      storage := [(recordKey "clip.mp4", (buildDoc storedDoc).map serializeNode)] }

/-- Witness for C3 on `roundtripPanel`. -/
theorem stamp_roundtrip_witness :
    getItem roundtripPanel.storage (recordKey "clip.mp4") =
      some ((buildDoc storedDoc).map serializeNode) ∧
    ((activate roundtripPanel (some "clip.mp4")).doc = buildDoc storedDoc ∧
      ∀ st : Stamp, stampOfAttrs (serializeAttrs st) = st) :=
  ⟨rfl, stamp_roundtrip storedDoc "clip.mp4" roundtripPanel rfl⟩

/-! ## The double-backspace machine -/

theorem isNone_eq_false_of_isSome {o : Option String} (h : o.isSome = true) :
    o.isNone = false := by
  cases o
  · simp at h
  · rfl

/-- For a mounted editor and a collapsed first range, `handleKeyDown` is
exactly the adjacency dispatch: the armed/delete logic at the adjacent stamp
index, or an idle reset letting the native backspace through. -/
theorem handleKeyDown_collapsed (s : EditorState) (sl : KSelection) (r : KRange)
    (rest : List KRange) (now : ℕ) (hm : s.videoFilename.isSome = true)
    (hr : sl.ranges = r :: rest) (hc : r.collapsed = true) :
    handleKeyDown s (some sl) now =
      match adjacentStamp s.doc r.container r.offset with
      | some j => backspaceStampDelete s now j
      | none => ({ s with lastBackspaceTime := 0 }, false) := by
  obtain ⟨f, hv⟩ := Option.isSome_iff_exists.mp hm
  simp only [handleKeyDown, hv, Option.isNone_some, Bool.false_eq_true, if_false, hr, hc,
    not_true_eq_false, adjacentStamp]
  cases hcon : r.container with
  | textNode i =>
    cases hdi : s.doc[i]? with
    | none => simp [hdi]
    | some nd =>
      cases nd with
      | text str =>
        by_cases hoff : r.offset = str.length
        · simp only [hdi, if_pos hoff]
          cases hdn : s.doc[i + 1]? with
          | none => simp [hdn]
          | some nd2 => cases nd2 <;> simp [hdn]
        · simp [hdi, hoff]
      | stampBtn a d hdl => simp [hdi]
  | rootElem =>
    by_cases hoff : r.offset > 0
    · simp only [if_pos hoff]
      cases hdn : s.doc[r.offset - 1]? with
      | none => simp [hdn]
      | some nd2 => cases nd2 <;> simp [hdn]
    · simp [hoff]

/-- An adjacency index always points at a stamp child. -/
theorem adjacentStamp_isStamp (doc : List DNode) (c : RangeNode) (off j : ℕ)
    (h : adjacentStamp doc c off = some j) :
    doc[j]?.map isStampNode = some true := by
  cases c with
  | textNode i =>
    simp only [adjacentStamp] at h
    split at h
    · split at h
      · split at h
        · rename_i heq2
          cases h
          rw [heq2]
          rfl
        · cases h
      · cases h
    · cases h
  | rootElem =>
    simp only [adjacentStamp] at h
    split at h
    · split at h
      · rename_i heq2
        cases h
        rw [heq2]
        rfl
      · cases h
    · cases h

/-- C2 (amended): the double-backspace two-state machine, with the idle
reset restricted to presses that carry a collapsed caret: an adjacent press
within 500ms of arming deletes exactly the adjacent stamp and returns to
idle; an adjacent press at 500ms or later (including the first press, when
the clock is at least 500ms past the epoch) arms without deleting, always
suppressing the native backspace; a collapsed-caret press not adjacent to a
stamp resets to idle and lets native backspace proceed; and a press with no
selection, zero ranges, or a non-collapsed range leaves the arming state
untouched and lets native backspace proceed. -/
theorem double_backspace_machine :
    (∀ (s : EditorState) (now : ℕ), handleKeyDown s none now = (s, false)) ∧
    (∀ (s : EditorState) (sl : KSelection) (now : ℕ), sl.ranges = [] →
      handleKeyDown s (some sl) now = (s, false)) ∧
    (∀ (s : EditorState) (sl : KSelection) (r : KRange) (rest : List KRange) (now : ℕ),
      sl.ranges = r :: rest → r.collapsed = false →
      handleKeyDown s (some sl) now = (s, false)) ∧
    (∀ (s : EditorState) (sl : KSelection) (r : KRange) (rest : List KRange) (now j : ℕ),
      s.videoFilename.isSome = true → sl.ranges = r :: rest → r.collapsed = true →
      adjacentStamp s.doc r.container r.offset = some j →
      s.doc[j]?.map isStampNode = some true ∧
      (now - s.lastBackspaceTime < 500 →
        handleKeyDown s (some sl) now =
          ({ s with
              doc := s.doc.eraseIdx j
              hasChanges := true
              lastBackspaceTime := 0
              toasts := s.toasts ++ [Toast.success "Stamp deleted"] }, true)) ∧
      (500 ≤ now - s.lastBackspaceTime →
        handleKeyDown s (some sl) now = ({ s with lastBackspaceTime := now }, true))) ∧
    (∀ (s : EditorState) (sl : KSelection) (r : KRange) (rest : List KRange) (now : ℕ),
      s.videoFilename.isSome = true → sl.ranges = r :: rest → r.collapsed = true →
      adjacentStamp s.doc r.container r.offset = none →
      handleKeyDown s (some sl) now = ({ s with lastBackspaceTime := 0 }, false)) := by
  refine ⟨?_, ?_, ?_, ?_, ?_⟩
  · intro s now
    rw [handleKeyDown]
    cases hv : s.videoFilename <;> simp [hv]
  · intro s sl now hr
    rw [handleKeyDown]
    cases hv : s.videoFilename <;> simp [hv, hr]
  · intro s sl r rest now hr hc
    rw [handleKeyDown]
    cases hv : s.videoFilename <;> simp [hv, hr, hc]
  · intro s sl r rest now j hm hr hc hadj
    refine ⟨adjacentStamp_isStamp s.doc r.container r.offset j hadj, ?_, ?_⟩
    · intro hfast
      rw [handleKeyDown_collapsed s sl r rest now hm hr hc]
      simp only [hadj, backspaceStampDelete, if_pos hfast]
    · intro hslow
      rw [handleKeyDown_collapsed s sl r rest now hm hr hc]
      simp only [hadj, backspaceStampDelete, if_neg (show ¬ now - s.lastBackspaceTime < 500 by omega)]
  · intro s sl r rest now hm hr hc hadj
    rw [handleKeyDown_collapsed s sl r rest now hm hr hc]
    simp only [hadj]

/-- A stamp used in the concrete keydown scenarios. -/
def stampA : Stamp := Stamp.mk "frame-3" StampKind.frame 42 "Frame"

/-- An armed panel: one text run then a stamp, `lastBackspaceTime = 1000`. -/
def armedPanel : EditorState :=
  { basePanel with
      videoFilename := some "clip.mp4"
      doc := [DNode.text "a", DNode.stampBtn (serializeAttrs stampA) "F42" (some stampA)]
      lastBackspaceTime := 1000 }

/-- Witness for C2: a second adjacent press at 1200ms (armed at 1000ms)
deletes exactly the adjacent stamp. -/
theorem double_backspace_machine_witness :
    armedPanel.videoFilename.isSome = true ∧
    (KSelection.mk [KRange.mk true (RangeNode.textNode 0) 1]).ranges =
      KRange.mk true (RangeNode.textNode 0) 1 :: [] ∧
    (KRange.mk true (RangeNode.textNode 0) 1).collapsed = true ∧
    adjacentStamp armedPanel.doc (RangeNode.textNode 0) 1 = some 1 ∧
    (1200 - armedPanel.lastBackspaceTime < 500 →
      handleKeyDown armedPanel (some (KSelection.mk [KRange.mk true (RangeNode.textNode 0) 1]))
          1200 =
        ({ armedPanel with
            doc := armedPanel.doc.eraseIdx 1
            hasChanges := true
            lastBackspaceTime := 0
            toasts := armedPanel.toasts ++ [Toast.success "Stamp deleted"] }, true)) := by
  refine ⟨rfl, rfl, rfl, by decide, ?_⟩
  exact (double_backspace_machine.2.2.2.1 armedPanel
    (KSelection.mk [KRange.mk true (RangeNode.textNode 0) 1])
    (KRange.mk true (RangeNode.textNode 0) 1) [] 1200 1 rfl rfl rfl (by decide)).2.1

/-- Counterexample for C2 as stated: a Backspace press that is not adjacent
to any stamp (its range is not collapsed) does not return the machine to
idle — the armed timestamp survives, where the claim requires a reset to
`Idle` on every non-adjacent press. -/
theorem double_backspace_counterexample :
    (handleKeyDown armedPanel
        (some (KSelection.mk [KRange.mk false (RangeNode.textNode 0) 1])) 1200).1.lastBackspaceTime
      ≠ 0 := by decide

/-- C10: a double-backspace stamp deletion marks the document dirty and
removes the adjacent stamp, but arms no autosave and writes nothing: the
timers, the timeout ref, the storage and the write log are all exactly as
before, so the removal only persists through a later edit, insertion or
manual save. -/
theorem backspace_delete_frame_effect (s : EditorState) (sl : KSelection) (r : KRange)
    (rest : List KRange) (now j : ℕ)
    (hm : s.videoFilename.isSome = true) (hr : sl.ranges = r :: rest)
    (hc : r.collapsed = true) (hadj : adjacentStamp s.doc r.container r.offset = some j)
    (hfast : now - s.lastBackspaceTime < 500) :
    (handleKeyDown s (some sl) now).1.storage = s.storage ∧
    (handleKeyDown s (some sl) now).1.timers = s.timers ∧
    (handleKeyDown s (some sl) now).1.timeoutRef = s.timeoutRef ∧
    (handleKeyDown s (some sl) now).1.writeLog = s.writeLog ∧
    (handleKeyDown s (some sl) now).1.hasChanges = true ∧
    (handleKeyDown s (some sl) now).1.doc = s.doc.eraseIdx j ∧
    s.doc[j]?.map isStampNode = some true := by
  have hred : (handleKeyDown s (some sl) now).1 =
      { s with
          doc := s.doc.eraseIdx j
          hasChanges := true
          lastBackspaceTime := 0
          toasts := s.toasts ++ [Toast.success "Stamp deleted"] } := by
    rw [handleKeyDown_collapsed s sl r rest now hm hr hc]
    simp only [hadj, backspaceStampDelete, if_pos hfast]
  rw [hred]
  exact ⟨rfl, rfl, rfl, rfl, rfl, rfl,
    adjacentStamp_isStamp s.doc r.container r.offset j hadj⟩

/-- A second armed panel (stamp first, caret in the editor element after
it), used to instantiate C10. -/
def armedPanelB : EditorState :=
  { basePanel with
      videoFilename := some "notes.mkv"
      doc := [DNode.stampBtn (serializeAttrs stampA) "F42" (some stampA), DNode.text "b"]
      lastBackspaceTime := 2000 }

/-- Witness for C10: the deletion at 2300ms leaves storage, timers and the
write log untouched. -/
theorem backspace_delete_frame_effect_witness :
    armedPanelB.videoFilename.isSome = true ∧
    adjacentStamp armedPanelB.doc RangeNode.rootElem 1 = some 0 ∧
    2300 - armedPanelB.lastBackspaceTime < 500 ∧
    ((handleKeyDown armedPanelB
        (some (KSelection.mk [KRange.mk true RangeNode.rootElem 1])) 2300).1.storage =
      armedPanelB.storage ∧
    (handleKeyDown armedPanelB
        (some (KSelection.mk [KRange.mk true RangeNode.rootElem 1])) 2300).1.timers =
      armedPanelB.timers ∧
    (handleKeyDown armedPanelB
        (some (KSelection.mk [KRange.mk true RangeNode.rootElem 1])) 2300).1.timeoutRef =
      armedPanelB.timeoutRef ∧
    (handleKeyDown armedPanelB
        (some (KSelection.mk [KRange.mk true RangeNode.rootElem 1])) 2300).1.writeLog =
      armedPanelB.writeLog ∧
    (handleKeyDown armedPanelB
        (some (KSelection.mk [KRange.mk true RangeNode.rootElem 1])) 2300).1.hasChanges = true ∧
    (handleKeyDown armedPanelB
        (some (KSelection.mk [KRange.mk true RangeNode.rootElem 1])) 2300).1.doc =
      armedPanelB.doc.eraseIdx 0 ∧
    armedPanelB.doc[0]?.map isStampNode = some true) := by
  refine ⟨rfl, by decide, by decide, ?_⟩
  exact backspace_delete_frame_effect armedPanelB
    (KSelection.mk [KRange.mk true RangeNode.rootElem 1])
    (KRange.mk true RangeNode.rootElem 1) [] 2300 0 rfl rfl rfl (by decide) (by decide)


/-! ## Debounce behaviour of the autosave -/

theorem fireDue_no_due (s : EditorState) (t : ℕ)
    (h : ∀ tm ∈ s.timers, t < tm.fireAt) : fireDue s t = s := by
  rw [fireDue]
  have hdue : s.timers.filter (fun tm => tm.fireAt ≤ t) = [] := by
    rw [List.filter_eq_nil_iff]
    intro tm htm
    have := h tm htm
    simp only [decide_eq_true_eq]
    omega
  have hrest : s.timers.filter (fun tm => t < tm.fireAt) = s.timers := by
    rw [List.filter_eq_self]
    intro tm htm
    simp only [decide_eq_true_eq]
    exact h tm htm
  rw [hdue, hrest]
  rfl

theorem clearScheduled_no_timers (s : EditorState) (h : s.timers = []) :
    clearScheduled s = s := by
  obtain ⟨vf, d0, hc0, lb0, tms0, tr0, ni0, st0, wl0, to0⟩ := s
  simp only at h
  subst h
  cases tr0 <;> rfl

/-- `handleInput` when exactly the ref'd timer is pending: the old timer is
dropped, a fresh one is armed 1000ms out, nothing else changes. -/
theorem step_input_armed (s : EditorState) (v : String) (i t u : ℕ) (d : List DNode)
    (hv : s.videoFilename = some v)
    (hT : s.timers = [AutoTimer.mk i (t + 1000) (some v)])
    (href : s.timeoutRef = some i)
    (hu : u < t + 1000) :
    step s u (Ev.input d) =
      { s with
          doc := d
          hasChanges := true
          timers := [AutoTimer.mk s.nextTimerId (u + 1000) (some v)]
          timeoutRef := some s.nextTimerId
          nextTimerId := s.nextTimerId + 1 } := by
  have hnodue : fireDue s u = s := by
    apply fireDue_no_due
    intro tm htm
    rw [hT] at htm
    simp only [List.mem_singleton] at htm
    subst htm
    simpa using hu
  rw [step, hnodue]
  show handleInput s d u = _
  obtain ⟨vf, d0, hc0, lb0, tms0, tr0, ni0, st0, wl0, to0⟩ := s
  simp only at hv hT href
  subst hv hT href
  simp [handleInput, scheduleAutoSave, clearScheduled, List.filter_cons]

/-- `handleInput` on a timer-free panel just arms a fresh 1000ms timer. -/
theorem step_input_fresh (s : EditorState) (v : String) (u : ℕ) (d : List DNode)
    (hv : s.videoFilename = some v) (hT : s.timers = []) :
    step s u (Ev.input d) =
      { s with
          doc := d
          hasChanges := true
          timers := [AutoTimer.mk s.nextTimerId (u + 1000) (some v)]
          timeoutRef := some s.nextTimerId
          nextTimerId := s.nextTimerId + 1 } := by
  have hnodue : fireDue s u = s := by
    apply fireDue_no_due
    intro tm htm
    rw [hT] at htm
    cases htm
  rw [step, hnodue]
  show handleInput s d u = _
  obtain ⟨vf, d0, hc0, lb0, tms0, tr0, ni0, st0, wl0, to0⟩ := s
  simp only at hv hT
  subst hv hT
  cases tr0 <;> simp [handleInput, scheduleAutoSave, clearScheduled]

/-- Running a chain of typing events while the 1000ms timer armed at `t` is
pending: nothing fires, nothing is written, and afterwards a single timer
armed 1000ms after the last keystroke is pending. -/
theorem run_inputs (v : String) :
    ∀ (evs : List (ℕ × List DNode)) (s : EditorState) (i t : ℕ),
      s.videoFilename = some v →
      s.timers = [AutoTimer.mk i (t + 1000) (some v)] →
      s.timeoutRef = some i →
      inputChain t evs →
      (run s (evs.map fun p => (p.1, Ev.input p.2))).videoFilename = some v ∧
      (run s (evs.map fun p => (p.1, Ev.input p.2))).writeLog = s.writeLog ∧
      (run s (evs.map fun p => (p.1, Ev.input p.2))).storage = s.storage ∧
      (run s (evs.map fun p => (p.1, Ev.input p.2))).doc = lastDoc s.doc evs ∧
      ∃ j, (run s (evs.map fun p => (p.1, Ev.input p.2))).timers =
            [AutoTimer.mk j (lastTime t evs + 1000) (some v)] ∧
          (run s (evs.map fun p => (p.1, Ev.input p.2))).timeoutRef = some j := by
  intro evs
  induction evs with
  | nil =>
    intro s i t hv hT href _
    exact ⟨hv, rfl, rfl, rfl, i, hT, href⟩
  | cons p rest ih =>
    obtain ⟨u, d⟩ := p
    intro s i t hv hT href hch
    obtain ⟨htu, hult, hch'⟩ := hch
    have hstep := step_input_armed s v i t u d hv hT href hult
    have hrun : run s (((u, d) :: rest).map fun p => (p.1, Ev.input p.2)) =
        run (step s u (Ev.input d)) (rest.map fun p => (p.1, Ev.input p.2)) := rfl
    rw [hrun, hstep]
    have hmain := ih
      { s with
          doc := d
          hasChanges := true
          timers := [AutoTimer.mk s.nextTimerId (u + 1000) (some v)]
          timeoutRef := some s.nextTimerId
          nextTimerId := s.nextTimerId + 1 }
      s.nextTimerId u hv rfl rfl hch'
    refine ⟨hmain.1, hmain.2.1, hmain.2.2.1, ?_, ?_⟩
    · rw [hmain.2.2.2.1]
      show lastDoc d rest = lastDoc s.doc ((u, d) :: rest)
      rw [lastDoc, lastDoc, List.map_cons, List.getLastD_cons]
    · obtain ⟨j, hj1, hj2⟩ := hmain.2.2.2.2
      refine ⟨j, ?_, hj2⟩
      rw [hj1]
      show [AutoTimer.mk j (lastTime u rest + 1000) (some v)] =
        [AutoTimer.mk j (lastTime t ((u, d) :: rest) + 1000) (some v)]
      rw [lastTime, lastTime, List.map_cons, List.getLastD_cons]

/-- Letting the lone pending timer of a still-mounted panel fire performs
exactly its one write. -/
theorem settleTimers_single (s : EditorState) (j fa : ℕ) (v : String)
    (hT : s.timers = [AutoTimer.mk j fa (some v)])
    (hv : s.videoFilename.isSome = true) :
    settleTimers s =
      { s with
          timers := []
          storage := setItem s.storage (recordKey v) (s.doc.map serializeNode)
          writeLog := s.writeLog ++ [(fa, recordKey v, s.doc.map serializeNode)]
          hasChanges := false } := by
  obtain ⟨vf, d0, hc0, lb0, tms0, tr0, ni0, st0, wl0, to0⟩ := s
  simp only at hT hv
  subst hT
  simp [settleTimers, autoSaveRun, hv]

theorem autoSaveRun_frame (c : Option String) (t : ℕ) (s : EditorState) :
    (autoSaveRun c t s).timers = s.timers ∧
    (autoSaveRun c t s).timeoutRef = s.timeoutRef ∧
    (autoSaveRun c t s).nextTimerId = s.nextTimerId ∧
    (autoSaveRun c t s).videoFilename = s.videoFilename := by
  cases c with
  | none => exact ⟨rfl, rfl, rfl, rfl⟩
  | some f =>
    simp only [autoSaveRun]
    by_cases hm : s.videoFilename.isSome = true
    · rw [if_pos hm]; exact ⟨rfl, rfl, rfl, rfl⟩
    · rw [if_neg hm]; exact ⟨rfl, rfl, rfl, rfl⟩

theorem foldl_autoSaveRun_frame (l : List AutoTimer) :
    ∀ s0 : EditorState,
      ((l.foldl (fun acc tm => autoSaveRun tm.savedFilename tm.fireAt acc) s0)).timers =
        s0.timers ∧
      ((l.foldl (fun acc tm => autoSaveRun tm.savedFilename tm.fireAt acc) s0)).timeoutRef =
        s0.timeoutRef ∧
      ((l.foldl (fun acc tm => autoSaveRun tm.savedFilename tm.fireAt acc) s0)).nextTimerId =
        s0.nextTimerId := by
  induction l with
  | nil => intro s0; exact ⟨rfl, rfl, rfl⟩
  | cons a l ih =>
    intro s0
    rw [List.foldl_cons]
    have h1 := autoSaveRun_frame a.savedFilename a.fireAt s0
    have h2 := ih (autoSaveRun a.savedFilename a.fireAt s0)
    exact ⟨h2.1.trans h1.1, h2.2.1.trans h1.2.1, h2.2.2.trans h1.2.2.1⟩

theorem fireDue_frame (s : EditorState) (t : ℕ) :
    (fireDue s t).timers = s.timers.filter (fun tm => t < tm.fireAt) ∧
    (fireDue s t).timeoutRef = s.timeoutRef ∧
    (fireDue s t).nextTimerId = s.nextTimerId := by
  rw [fireDue]
  have h := foldl_autoSaveRun_frame (s.timers.filter (fun tm => tm.fireAt ≤ t))
    { s with timers := s.timers.filter (fun tm => t < tm.fireAt) }
  exact ⟨h.1, h.2.1, h.2.2⟩

theorem timerInv_of_fields (s s2 : EditorState) (h1 : s2.timers = s.timers)
    (h2 : s2.timeoutRef = s.timeoutRef) (h3 : s2.nextTimerId = s.nextTimerId)
    (h : TimerInv s) : TimerInv s2 := by
  rw [TimerInv, h1, h2, h3]
  exact h

theorem fireDue_timerInv (s : EditorState) (t : ℕ) (h : TimerInv s) :
    TimerInv (fireDue s t) := by
  have hf := fireDue_frame s t
  rcases h with h | ⟨tm, hT, href, hlt⟩
  · left
    rw [hf.1, h]
    rfl
  · by_cases hdue : t < tm.fireAt
    · right
      refine ⟨tm, ?_, ?_, ?_⟩
      · rw [hf.1, hT, List.filter_cons]
        simp [hdue]
      · rw [hf.2.1, href]
      · rw [hf.2.2]
        exact hlt
    · left
      rw [hf.1, hT, List.filter_cons]
      simp [hdue]

theorem clearScheduled_frame (s : EditorState) :
    (clearScheduled s).videoFilename = s.videoFilename ∧
    (clearScheduled s).timeoutRef = s.timeoutRef ∧
    (clearScheduled s).nextTimerId = s.nextTimerId := by
  obtain ⟨vf, d0, hc0, lb0, tms0, tr0, ni0, st0, wl0, to0⟩ := s
  cases tr0 <;> exact ⟨rfl, rfl, rfl⟩

theorem clearScheduled_timers_of_inv (s : EditorState) (h : TimerInv s) :
    (clearScheduled s).timers = [] := by
  rcases h with h | ⟨tm, hT, href, _⟩
  · rw [clearScheduled_no_timers s h, h]
  · obtain ⟨vf, d0, hc0, lb0, tms0, tr0, ni0, st0, wl0, to0⟩ := s
    simp only at hT href
    subst hT href
    simp [clearScheduled, List.filter_cons]

theorem scheduleAutoSave_timerInv (s : EditorState) (t delay : ℕ) (h : TimerInv s) :
    TimerInv (scheduleAutoSave s t delay) := by
  have hcl := clearScheduled_timers_of_inv s h
  right
  refine ⟨AutoTimer.mk (clearScheduled s).nextTimerId (t + delay)
    (clearScheduled s).videoFilename, ?_, ?_, ?_⟩
  · show (clearScheduled s).timers ++ [_] = _
    rw [hcl, List.nil_append]
  · rfl
  · show (clearScheduled s).nextTimerId < (clearScheduled s).nextTimerId + 1
    omega

theorem loadNotesEffect_frame (s : EditorState) :
    (loadNotesEffect s).timers = s.timers ∧
    (loadNotesEffect s).timeoutRef = s.timeoutRef ∧
    (loadNotesEffect s).nextTimerId = s.nextTimerId := by
  unfold loadNotesEffect
  split
  · exact ⟨rfl, rfl, rfl⟩
  · split <;> exact ⟨rfl, rfl, rfl⟩

theorem applyEv_timerInv (s : EditorState) (t : ℕ) (e : Ev) (h : TimerInv s) :
    TimerInv (applyEv s t e) := by
  cases e with
  | input d =>
    show TimerInv (scheduleAutoSave { s with doc := d, hasChanges := true } t 1000)
    exact scheduleAutoSave_timerInv _ t 1000 h
  | activateVideo v =>
    show TimerInv (loadNotesEffect { s with videoFilename := v })
    have hf := loadNotesEffect_frame { s with videoFilename := v }
    exact timerInv_of_fields s _ hf.1 hf.2.1 hf.2.2 h
  | insertStamp st disp sel =>
    show TimerInv (match insertStampButton s sel st disp t with
      | Except.ok s2 => s2
      | Except.error _ => s)
    cases hres : insertStampButton s sel st disp t with
    | error e =>
      simp only
      exact h
    | ok s2 =>
      simp only
      rcases sel with _ | ⟨⟨rs⟩⟩
      · unfold insertStampButton at hres
        by_cases hn : s.videoFilename.isNone = true
        · rw [if_pos hn] at hres
          injection hres with h2
          subst h2
          exact h
        · rw [if_neg hn] at hres
          injection hres with h2
          subst h2
          exact scheduleAutoSave_timerInv _ t 500 h
      · unfold insertStampButton at hres
        by_cases hn : s.videoFilename.isNone = true
        · rw [if_pos hn] at hres
          injection hres with h2
          subst h2
          exact h
        · rw [if_neg hn] at hres
          cases rs with
          | nil => exact absurd hres (by simp)
          | cons r rtl =>
            injection hres with h2
            subst h2
            exact scheduleAutoSave_timerInv _ t 500 h

theorem step_timerInv (s : EditorState) (t : ℕ) (e : Ev) (h : TimerInv s) :
    TimerInv (step s t e) :=
  applyEv_timerInv (fireDue s t) t e (fireDue_timerInv s t h)

/-- C6: the autosave is a trailing-edge debounce with at most one pending
timer.  (i) A burst of `onTextChanged` calls each within 1000ms of the
previous one, starting with no timer pending, produces exactly one write:
the final document stored under the active video's key exactly 1000ms after
the last call.  (ii) A stamp insertion cancels the ref'd pending timer and
arms a fresh one 500ms out instead.  (iii) Every scheduler step preserves
the at-most-one-pending-timer invariant. -/
theorem autosave_debounce :
    (∀ (s : EditorState) (v : String) (t1 : ℕ) (d1 : List DNode)
        (rest : List (ℕ × List DNode)),
      s.videoFilename = some v → s.timers = [] → inputChain t1 rest →
      (settleTimers (run s (((t1, d1) :: rest).map fun p => (p.1, Ev.input p.2)))).writeLog =
        s.writeLog ++
          [(lastTime t1 rest + 1000, recordKey v, (lastDoc d1 rest).map serializeNode)] ∧
      (settleTimers (run s (((t1, d1) :: rest).map fun p => (p.1, Ev.input p.2)))).storage =
        setItem s.storage (recordKey v) ((lastDoc d1 rest).map serializeNode)) ∧
    (∀ (s : EditorState) (v : String) (st : Stamp) (disp : String) (t : ℕ),
      s.videoFilename = some v →
      insertStampButton s none st disp t =
        Except.ok
          { s with
              doc := s.doc ++ [DNode.stampBtn (serializeAttrs st) disp (some st)]
              hasChanges := true
              timers := (clearScheduled s).timers ++
                [AutoTimer.mk s.nextTimerId (t + 500) (some v)]
              timeoutRef := some s.nextTimerId
              nextTimerId := s.nextTimerId + 1 }) ∧
    (∀ (s : EditorState) (t : ℕ) (e : Ev), TimerInv s → TimerInv (step s t e)) := by
  refine ⟨?_, ?_, fun s t e h => step_timerInv s t e h⟩
  · intro s v t1 d1 rest hv hT hch
    have hstep := step_input_fresh s v t1 d1 hv hT
    have hrun : run s (((t1, d1) :: rest).map fun p => (p.1, Ev.input p.2)) =
        run (step s t1 (Ev.input d1)) (rest.map fun p => (p.1, Ev.input p.2)) := rfl
    obtain ⟨hvf, hwl, hst, hdoc, j, hj1, hj2⟩ := run_inputs v rest
      { s with
          doc := d1
          hasChanges := true
          timers := [AutoTimer.mk s.nextTimerId (t1 + 1000) (some v)]
          timeoutRef := some s.nextTimerId
          nextTimerId := s.nextTimerId + 1 }
      s.nextTimerId t1 hv rfl rfl hch
    rw [hrun, hstep,
      settleTimers_single _ j (lastTime t1 rest + 1000) v hj1 (by rw [hvf]; rfl)]
    constructor <;> simp only [hwl, hst, hdoc]
  · intro s v st disp t hv
    obtain ⟨vf, d0, hc0, lb0, tms0, tr0, ni0, st0, wl0, to0⟩ := s
    simp only at hv
    subst hv
    cases tr0 <;> simp [insertStampButton, scheduleAutoSave, clearScheduled]

/-- C6 witness: a panel with `clip.mp4` active. -/
def debouncePanel : EditorState :=
  { basePanel with videoFilename := some "clip.mp4" }

/-- Witness for C6: two keystrokes at 100ms and 500ms coalesce into a single
write at 1500ms. -/
theorem autosave_debounce_witness :
    debouncePanel.videoFilename = some "clip.mp4" ∧
    debouncePanel.timers = [] ∧
    inputChain 100 [(500, [DNode.text "xy"])] ∧
    ((settleTimers (run debouncePanel
        (((100, [DNode.text "x"]) :: [(500, [DNode.text "xy"])]).map
          fun p => (p.1, Ev.input p.2)))).writeLog =
      debouncePanel.writeLog ++
        [(lastTime 100 [(500, [DNode.text "xy"])] + 1000, recordKey "clip.mp4",
          (lastDoc [DNode.text "x"] [(500, [DNode.text "xy"])]).map serializeNode)] ∧
    (settleTimers (run debouncePanel
        (((100, [DNode.text "x"]) :: [(500, [DNode.text "xy"])]).map
          fun p => (p.1, Ev.input p.2)))).storage =
      setItem debouncePanel.storage (recordKey "clip.mp4")
        ((lastDoc [DNode.text "x"] [(500, [DNode.text "xy"])]).map serializeNode)) :=
  ⟨rfl, rfl, ⟨by omega, by omega, trivial⟩,
    autosave_debounce.1 debouncePanel "clip.mp4" 100 [DNode.text "x"]
      [(500, [DNode.text "xy"])] rfl rfl ⟨by omega, by omega, trivial⟩⟩

/-! ## Stale autosave across a video switch -/

/-- C1: video `A.mp4` is active with some typed content; `B.mp4` has a
persisted record reading `beta`. -/
def staleStart : EditorState :=
  { basePanel with
      videoFilename := some "A.mp4"
      doc := [DNode.text "alpha"]
      storage := [(recordKey "B.mp4", [SNode.text "beta"])] }

/-- C1: the user types in `A.mp4` at 10000ms (arming a 1000ms autosave for
`A.mp4`), then switches to `B.mp4` at 10200ms; the pending timer survives
the switch and fires at 11000ms. -/
def staleTrace : List (ℕ × Ev) :=
  [(10000, Ev.input [DNode.text "alpha edit"]),
   (10200, Ev.activateVideo (some "B.mp4"))]

/-- C1: the pending autosave scheduled under `A.mp4` is not cancelled by the
switch to `B.mp4`; when it fires it writes the editor's *current* content —
`B.mp4`'s freshly loaded document `beta` — under `A.mp4`'s record key,
exactly the cross-contamination the claim rules out.  (The captured-filename
half of the claim does hold: the write targets `vidnotes_A.mp4`, the
filename captured at schedule time.) -/
theorem autosave_stale_write :
    (settleTimers (run staleStart staleTrace)).writeLog =
      [(11000, recordKey "A.mp4", [SNode.text "beta"])] ∧
    getItem (settleTimers (run staleStart staleTrace)).storage (recordKey "A.mp4") =
      some [SNode.text "beta"] ∧
    getItem staleStart.storage (recordKey "B.mp4") = some [SNode.text "beta"] ∧
    (run staleStart staleTrace).videoFilename = some "B.mp4" := by decide

end Alairy
